import Mathlib

/-!
# Verification of the sdnext-benchmark worker (src/index.ts)

A shallow embedding, in Lean 4, of the control logic of the benchmarking
worker in src/index.ts of the sdnext-benchmark repository, together with
theorems settling the specification claims about it.

Modelling conventions:
* Network calls are abstracted by traces: a function from attempt index to
  an outcome, or a list of queue responses, supplied as a parameter.  The
  body of each embedded function mirrors the control flow of its JS source.
* A JS function that can throw is embedded with an explicit error result
  (Except, or a dedicated result constructor); a function whose body
  contains no throw and swallows all exceptions is embedded with a result
  type that still distinguishes an error so that the absence of a thrown
  error is expressible.
* The SIGINT flag stayAlive is taken to be constantly true in the polling
  models (the claims under scrutiny concern attempt and failure budgets,
  not interrupts); the loop guard of main models the flag explicitly.
* JS numbers appearing in the request template are embedded as rationals
  where fractional (denoising_strength) and as naturals where integral.
-/

set_option maxRecDepth 100000

namespace SdnextBenchmark

/-! ## String helpers: JS String.prototype.includes and String.prototype.split

src/index.ts uses line.includes("Startup time:") (line 310) and
url.split("?")[0] (line 222).  We embed both over lists of characters.
-/

/-- charsMatch needle hay is true iff needle is an initial segment of hay
(the matching step of a substring search). -/
def charsMatch : List Char → List Char → Bool
  | [], _ => true
  | _ :: _, [] => false
  | a :: as, b :: bs => a == b && charsMatch as bs

/-- hasSub needle hay embeds JS hay.includes(needle): true iff needle occurs
contiguously inside hay. -/
def hasSub (needle : List Char) : List Char → Bool
  | [] => charsMatch needle []
  | b :: bs => charsMatch needle (b :: bs) || hasSub needle bs

/-- jsSplit sep s embeds JS s.split(sep) for a one-character separator:
the maximal runs of s between occurrences of sep, empty runs included. -/
def jsSplit (sep : Char) : List Char → List (List Char)
  | [] => [[]]
  | c :: rest =>
    if c = sep then [] :: jsSplit sep rest
    else
      match jsSplit sep rest with
      | [] => [[c]]
      | h :: t => (c :: h) :: t

/-- jsSplit never returns an empty list (JS split always yields at least
one piece). -/
theorem jsSplit_ne_nil (sep : Char) (s : List Char) : jsSplit sep s ≠ [] := by
  induction s with
  | nil => simp [jsSplit]
  | cons c rest ih =>
    simp only [jsSplit]
    split
    · simp
    · split
      · simp
      · simp

/-- The first piece of a JS split is the longest separator-free initial
segment of the input. -/
theorem jsSplit_head (sep : Char) (s : List Char) :
    (jsSplit sep s).headI = s.takeWhile (fun c => !(c = sep : Bool)) := by
  induction s with
  | nil => simp [jsSplit]
  | cons c rest ih =>
    simp only [jsSplit, List.takeWhile]
    by_cases h : c = sep
    · simp [h]
    · simp only [if_neg h]
      rcases hsplit : jsSplit sep rest with _ | ⟨hd, tl⟩
      · exact absurd hsplit (jsSplit_ne_nil sep rest)
      · simp only [List.headI]
        rw [hsplit] at ih
        simp only [List.headI] at ih
        simp [h, ih]

/-! ## uploadImage (src/index.ts lines 212-223)

async function uploadImage(image, url) performs a PUT of the image bytes to
the pre-signed url and then returns url.split("?")[0].  The PUT itself has
no influence on the returned value, so the embedding is the pure return
expression applied to the url.
-/

/-- The value returned by uploadImage for a given pre-signed url:
url.split("?")[0], the first piece of the split on the question mark. -/
def uploadImage (url : String) : String :=
  ⟨(jsSplit '?' url.data).headI⟩

/-! ## The request template and the queue job source

src/index.ts lines 32-56 define the fixed template testJob; lines 121-165
define getJob, which fetches one queue message, parses its body into an
SDJob descriptor, and merges prompt and batch_size into the template.
-/

/-- The body shape of a txt2img submission, with exactly the fields the
template testJob sets plus batch_size (absent from the template, added by
getJob); absence is modelled with Option. -/
structure Text2ImageRequest where
  prompt : String
  steps : Nat
  width : Nat
  height : Nat
  send_images : Bool
  cfg_scale : ℚ
  enable_hr : Bool
  hr_upscaler : String
  refiner_start : Nat
  denoising_strength : ℚ
  hr_second_pass_steps : Nat
  batch_size : Option Nat
  deriving DecidableEq

/-- The fixed template request of src/index.ts lines 32-56.  batch_size is
not set there, hence none. -/
def testJob : Text2ImageRequest :=
  { prompt := "cat"
    steps := 20
    width := 1216
    height := 896
    send_images := true
    cfg_scale := 7
    enable_hr := true
    hr_upscaler := "None"
    refiner_start := 20
    denoising_strength := 43 / 100
    hr_second_pass_steps := 35
    batch_size := none }

/-- The job descriptor carried in a queue message body (types.ts shape used
at src/index.ts line 131): id, prompt, batch_size and the pre-signed upload
urls. -/
structure SDJob where
  id : String
  prompt : String
  batch_size : Nat
  upload_url : List String
  deriving DecidableEq

/-- One message of a queue response: its identifier and its body.  The body
is given already decoded: some job when JSON.parse succeeds on it with the
SDJob shape, none when JSON.parse would throw. -/
structure QueueMessage where
  messageId : String
  body : Option SDJob
  deriving DecidableEq

/-- The queue response of GET /queueName: an optional list of messages
(the messages field may be absent, hence Option). -/
structure GetJobFromQueueResponse where
  messages : Option (List QueueMessage)
  deriving DecidableEq

/-- What getJob hands back to the loop in the non-null case (src/index.ts
lines 133-160). -/
structure JobAssignment where
  request : Text2ImageRequest
  messageId : String
  uploadUrls : List String
  jobId : String
  deriving DecidableEq

/-- getJob (src/index.ts lines 121-165) applied to the queue response it
fetched.  The guard queueMessage.messages?.length is the JS truthiness
test: it passes exactly when messages is present and non-empty.  Then the
first message body is parsed (a throwing JSON.parse is the error case) and
prompt and batch_size are merged into the template; otherwise null is
returned, embedded as Except.ok none. -/
def getJob (resp : GetJobFromQueueResponse) : Except Unit (Option JobAssignment) :=
  match resp.messages with
  | some (m :: _) =>
    match m.body with
    | some job =>
      .ok (some
        { jobId := job.id
          request := { testJob with prompt := job.prompt, batch_size := some job.batch_size }
          messageId := m.messageId
          uploadUrls := job.upload_url })
    | none => .error ()
  | _ => .ok none

/-! ## The background persistence chain (src/index.ts lines 400-414)

After a submission the loop launches, without awaiting it,

  Promise.all(response.images.map((image, i) => uploadImage(image, uploadUrls[i])))
    .then(recordResult ...)
    .then(markJobComplete(messageId) ...)

Promise.all resolves only once every mapped upload has resolved, and each
.then stage runs only after the previous stage resolved, so the chain is
the sequence: the uploads of all images, then the result report, then the
queue-message delete.  We embed the chain as that list of actions; a
scheduler may interleave the lists of distinct jobs but executes each list
in order.
-/

/-- One step of a persistence chain. -/
inductive PersistAction where
  | uploadImg (idx : Nat) (url : String)
  | reportResult (jobId : String)
  | deleteMessage (messageId : String)
  deriving DecidableEq

/-- The persistence chain launched for a job whose submission returned
numImgs images: one upload per image i to uploadUrls[i] (JS indexing, out
of range giving undefined, is embedded with getD), then the report to the
collector, then the queue delete. -/
def persistenceChain (j : JobAssignment) (numImgs : Nat) : List PersistAction :=
  ((List.range numImgs).map fun i => PersistAction.uploadImg i (j.uploadUrls.getD i ""))
    ++ [PersistAction.reportResult j.jobId, PersistAction.deleteMessage j.messageId]

/-! ## The benchmarking loop (src/index.ts lines 373-415)

  let numImages = 0;
  while (stayAlive && (benchmarkSize < 0 || numImages < benchmarkSize)) {
    const job = await getJob();
    if (!job) { await sleep(1000); continue; }
    response = await submitJob(request);
    numImages += response.images.length;
    Promise.all(...).then(...).then(...);   // not awaited
  }

The queue and the inference server are abstracted: a list of queue
responses (one per iteration that reaches getJob) and a function from
request to the list of images the server returns.  benchmarkSize is the
parseInt of the BENCHMARK_SIZE variable, an integer (a NaN configuration is
outside the claims and not modelled).
-/

/-- The loop guard of src/index.ts line 375:
stayAlive and (benchmarkSize less than 0, or numImages less than
benchmarkSize). -/
def loopGuard (stayAlive : Bool) (benchmarkSize : Int) (numImages : Nat) : Bool :=
  stayAlive && (decide (benchmarkSize < 0) || decide ((numImages : Int) < benchmarkSize))

/-- The loop-visible state: the running image counter and the persistence
chains launched so far (pending, in launch order, each with its remaining
actions). -/
structure LoopState where
  numImages : Nat
  chains : List (List PersistAction)
  deriving DecidableEq

/-- Observable events of one loop iteration body. -/
inductive IterEvent where
  | sleptMs (ms : Nat)
  | submitted (request : Text2ImageRequest) (numImgs : Nat)
  deriving DecidableEq

/-- One execution of the loop body (src/index.ts lines 376-414) against the
queue response fetched in that iteration, with `inference` abstracting the
server: the resulting state and the events of the iteration, or the error
of a throwing getJob.  A null job sleeps 1000 ms and leaves the state
unchanged; a job is submitted, the counter grows by the number of returned
images, and the persistence chain is launched (recorded in the state, never
awaited). -/
def loopBody (inference : Text2ImageRequest → List String)
    (resp : GetJobFromQueueResponse) (s : LoopState) :
    Except Unit (LoopState × List IterEvent) :=
  match getJob resp with
  | .error e => .error e
  | .ok none => .ok (s, [IterEvent.sleptMs 1000])
  | .ok (some j) =>
    let images := inference j.request
    .ok
      ({ numImages := s.numImages + images.length
         chains := s.chains ++ [persistenceChain j images.length] },
       [IterEvent.submitted j.request images.length])

/-- The benchmarking loop run over a finite schedule of queue responses
(the loop also stops when the schedule is exhausted, standing for an
interrupt).  Returns the final state and the sizes, in order, of the
successfully submitted batches. -/
def runMain (benchmarkSize : Int) (inference : Text2ImageRequest → List String) :
    List GetJobFromQueueResponse → LoopState → LoopState × List Nat
  | [], s => (s, [])
  | r :: rest, s =>
    if loopGuard true benchmarkSize s.numImages then
      match getJob r with
      | .error _ => (s, [])
      | .ok none => runMain benchmarkSize inference rest s
      | .ok (some j) =>
        let images := inference j.request
        let p := runMain benchmarkSize inference rest
          { numImages := s.numImages + images.length
            chains := s.chains ++ [persistenceChain j images.length] }
        (p.1, images.length :: p.2)
    else (s, [])

/-- One scheduling step of the launched (unawaited) persistence chains:
chain i, when it still has actions, performs its next action.  The embedded
counter state is untouched: the chains never write numImages. -/
def stepChains (s : LoopState) (i : Nat) : LoopState :=
  { numImages := s.numImages
    chains := s.chains.take i ++
      (match s.chains.get? i with
       | some c => [c.drop 1]
       | none => []) ++ s.chains.drop (i + 1) }

/-! ## waitForServerToStart (src/index.ts lines 284-296)

  const maxAttempts = 300;
  let attempts = 0;
  while (stayAlive && attempts++ < maxAttempts) {
    try { await getServerStatus(); return; }
    catch (e) { console.log(...); await sleep(1000); }
  }

The status probe is abstracted as a trace: probe n is true when the n-th
getServerStatus call succeeds.  The body contains no throw and every
exception of the probe is caught, so the function can only return
normally; the result is nevertheless wrapped in Except String so that the
absence of a thrown error is a statement about the embedding, not an
artifact of it.  The second component counts the sleep(1000) calls
performed.
-/

/-- How waitForServerToStart came back: a first successful probe at the
given attempt index, or the attempt budget ran out and the while loop fell
through (a plain return, not a throw). -/
inductive ServerStartOutcome where
  | ready (attempt : Nat)
  | gaveUp
  deriving DecidableEq

/-- The while loop of waitForServerToStart, with the current attempt index
and the remaining attempts of the budget. -/
def waitForServerToStartGo (probe : Nat → Bool) :
    Nat → Nat → Except String ServerStartOutcome × Nat
  | _, 0 => (.ok ServerStartOutcome.gaveUp, 0)
  | attempt, r + 1 =>
    if probe attempt then (.ok (ServerStartOutcome.ready attempt), 0)
    else
      let p := waitForServerToStartGo probe (attempt + 1) r
      (p.1, p.2 + 1)

/-- waitForServerToStart over a probe trace: the outcome and the number of
one-second sleeps performed. -/
def waitForServerToStart (probe : Nat → Bool) : Except String ServerStartOutcome × Nat :=
  waitForServerToStartGo probe 0 300

/-! ## waitForModelToLoad (src/index.ts lines 302-329)

  const maxAttempts = 300;
  const maxFailures = 10;
  let attempts = 0;
  let failures = 0;
  while (stayAlive && attempts++ < maxAttempts) {
    try {
      const logLines = await getSDNextLogs();
      if (logLines.some((line) => line.includes("Startup time:"))) return;
    } catch(e) {
      failures++;
      if (failures > maxFailures) throw e;
    }
    await sleep(1000);
  }
  throw new Error("Timed out waiting for model to load");

Note that failures is never reset by a successful getSDNextLogs call: it
counts failures cumulatively over the whole loop.
-/

/-- The outcome of one getSDNextLogs call: a thrown request failure, or the
fetched log lines. -/
inductive FetchOutcome where
  | failure
  | success (lines : List String)
  deriving DecidableEq

/-- Whether a fetch outcome is a successful fetch. -/
def FetchOutcome.isSuccess : FetchOutcome → Bool
  | .failure => false
  | .success _ => true

/-- The marker line test of src/index.ts line 310:
line.includes("Startup time:"). -/
def lineHasMarker (line : String) : Bool :=
  hasSub "Startup time:".data line.data

/-- Whether the n-th fetch of a trace succeeds with a line containing the
startup marker. -/
def markerAt (t : Nat → FetchOutcome) (n : Nat) : Bool :=
  match t n with
  | .failure => false
  | .success lines => lines.any lineHasMarker

/-- How waitForModelToLoad came back: normal return (marker seen), the
rethrow of the failure that exceeded the failure budget, or the timeout
error thrown after the attempt budget. -/
inductive ModelLoadResult where
  | ok
  | fatalError
  | timeout
  deriving DecidableEq

/-- Observable events of the model-load polling loop. -/
inductive PollEv where
  | logsFetched (markerSeen : Bool)
  | requestFailed
  | sleptMs (ms : Nat)
  deriving DecidableEq

/-- The while loop of waitForModelToLoad: current attempt index, cumulative
failure count, remaining attempts.  Every iteration that does not return or
throw ends with a sleep(1000); exhausting the budget throws the timeout
error. -/
def waitForModelToLoadGo (t : Nat → FetchOutcome) :
    Nat → Nat → Nat → ModelLoadResult × List PollEv
  | _, _, 0 => (ModelLoadResult.timeout, [])
  | attempt, failures, r + 1 =>
    match t attempt with
    | .success lines =>
      if lines.any lineHasMarker then (ModelLoadResult.ok, [PollEv.logsFetched true])
      else
        let p := waitForModelToLoadGo t (attempt + 1) failures r
        (p.1, PollEv.logsFetched false :: PollEv.sleptMs 1000 :: p.2)
    | .failure =>
      if failures + 1 > 10 then (ModelLoadResult.fatalError, [PollEv.requestFailed])
      else
        let p := waitForModelToLoadGo t (attempt + 1) (failures + 1) r
        (p.1, PollEv.requestFailed :: PollEv.sleptMs 1000 :: p.2)

/-- waitForModelToLoad over a fetch trace: the result and the event list of
the polling loop. -/
def waitForModelToLoad (t : Nat → FetchOutcome) : ModelLoadResult × List PollEv :=
  waitForModelToLoadGo t 0 0 300

/-- Modelled from the spec: the failure tolerance as the specification
words it, with the failure counter reset by every successful log fetch, so
that only consecutive failures count against the budget of 10.  This is
the comparison definition for the consecutive-failure claim; the source
definition above never resets the counter. -/
def waitForModelToLoadSpecGo (t : Nat → FetchOutcome) :
    Nat → Nat → Nat → ModelLoadResult
  | _, _, 0 => ModelLoadResult.timeout
  | attempt, failures, r + 1 =>
    match t attempt with
    | .success lines =>
      if lines.any lineHasMarker then ModelLoadResult.ok
      else waitForModelToLoadSpecGo t (attempt + 1) 0 r
    | .failure =>
      if failures + 1 > 10 then ModelLoadResult.fatalError
      else waitForModelToLoadSpecGo t (attempt + 1) (failures + 1) r

/-- Modelled from the spec: waitForModelToLoad with consecutive-failure
tolerance. -/
def waitForModelToLoadSpec (t : Nat → FetchOutcome) : ModelLoadResult :=
  waitForModelToLoadSpecGo t 0 0 300

/-- The number of failed fetches among the attempts a, a+1, ..., a+r-1 of a
trace. -/
def failCountFrom (t : Nat → FetchOutcome) : Nat → Nat → Nat
  | _, 0 => 0
  | a, r + 1 => (if t a = FetchOutcome.failure then 1 else 0) + failCountFrom t (a + 1) r

/-- The number of failed fetches among the first n attempts of a trace. -/
def failCount (t : Nat → FetchOutcome) (n : Nat) : Nat :=
  failCountFrom t 0 n

/-- The length of the longest run of consecutive failures within the first
n attempts of a trace, computed as the maximum over starting points of the
run length starting there. -/
def consecutiveFailuresAt (t : Nat → FetchOutcome) (a : Nat) : Nat → Nat
  | 0 => 0
  | r + 1 =>
    if t a = FetchOutcome.failure then consecutiveFailuresAt t (a + 1) r + 1 else 0

/-- The longest consecutive-failure run fully inside the first n attempts.
-/
def maxConsecutiveFailures (t : Nat → FetchOutcome) (n : Nat) : Nat :=
  (List.range n).foldr (fun a acc => max (min (consecutiveFailuresAt t a (n - a)) (n - a)) acc) 0

/-! ## Theorems for the claims -/

/-- C9: For every pre-signed URL, uploadImage returns that URL with its
query string stripped, i.e. the longest initial segment of the input that
contains no question mark; on the spec example
https://host/bucket/key?sig=abc it returns https://host/bucket/key. -/
theorem uploadImage_strips_query_string :
    (∀ url : String,
      (uploadImage url).data = url.data.takeWhile (fun c => !(c = '?' : Bool)))
    ∧ uploadImage "https://host/bucket/key?sig=abc" = "https://host/bucket/key" := by
  refine ⟨fun url => jsSplit_head '?' url.data, ?_⟩
  rfl

/-- C10: For every URL containing no question-mark character, uploadImage
returns the input URL unchanged. -/
theorem uploadImage_id_of_no_query (url : String) (h : '?' ∉ url.data) :
    uploadImage url = url := by
  have hchar : ∀ c ∈ url.data, (!(c = '?' : Bool)) = true := by
    intro c hc
    simp only [Bool.not_eq_true', decide_eq_false_iff_not]
    exact fun hq => h (hq ▸ hc)
  have htake := List.takeWhile_eq_self_iff.mpr hchar
  have hdata : (uploadImage url).data = url.data := by
    rw [(uploadImage_strips_query_string).1 url, htake]
  exact String.ext hdata

/-- Witness for C10 at a concrete query-free URL. -/
theorem uploadImage_id_of_no_query_witness :
    uploadImage "https://host/bucket/key" = "https://host/bucket/key" :=
  uploadImage_id_of_no_query "https://host/bucket/key" (by decide)

/-- C8: For every queue response whose first message body parses to a job
descriptor, getJob returns, without error, the fixed template with exactly
the prompt and batch_size fields replaced by the descriptor's values and
every other template field unchanged, together with the message identifier
and the descriptor's pre-signed upload URLs (and its job id). -/
theorem getJob_merges_prompt_and_batch (resp : GetJobFromQueueResponse)
    (m : QueueMessage) (rest : List QueueMessage) (job : SDJob)
    (hresp : resp.messages = some (m :: rest)) (hbody : m.body = some job) :
    ∃ a : JobAssignment,
      getJob resp = Except.ok (some a)
      ∧ a.request.prompt = job.prompt
      ∧ a.request.batch_size = some job.batch_size
      ∧ a.request.steps = testJob.steps
      ∧ a.request.width = testJob.width
      ∧ a.request.height = testJob.height
      ∧ a.request.send_images = testJob.send_images
      ∧ a.request.cfg_scale = testJob.cfg_scale
      ∧ a.request.enable_hr = testJob.enable_hr
      ∧ a.request.hr_upscaler = testJob.hr_upscaler
      ∧ a.request.refiner_start = testJob.refiner_start
      ∧ a.request.denoising_strength = testJob.denoising_strength
      ∧ a.request.hr_second_pass_steps = testJob.hr_second_pass_steps
      ∧ a.messageId = m.messageId
      ∧ a.uploadUrls = job.upload_url
      ∧ a.jobId = job.id := by
  refine ⟨{ jobId := job.id
            request := { testJob with prompt := job.prompt, batch_size := some job.batch_size }
            messageId := m.messageId
            uploadUrls := job.upload_url }, ?_⟩
  simp [getJob, hresp, hbody]

/-- A concrete job descriptor used to witness getJob. -/
def witnessDescriptor : SDJob :=
  { id := "job-1"
    prompt := "a dog"
    batch_size := 4
    upload_url := ["u1", "u2", "u3", "u4"] }

/-- A concrete queue message whose body parses to witnessDescriptor. -/
def witnessMessage : QueueMessage :=
  { messageId := "mid-1"
    body := some witnessDescriptor }

/-- Witness for C8 at a concrete queue response. -/
theorem getJob_merges_prompt_and_batch_witness :
    ∃ a : JobAssignment,
      getJob { messages := some [witnessMessage] } = Except.ok (some a)
      ∧ a.request.prompt = "a dog"
      ∧ a.request.batch_size = some 4
      ∧ a.request.steps = testJob.steps
      ∧ a.request.width = testJob.width
      ∧ a.request.height = testJob.height
      ∧ a.request.send_images = testJob.send_images
      ∧ a.request.cfg_scale = testJob.cfg_scale
      ∧ a.request.enable_hr = testJob.enable_hr
      ∧ a.request.hr_upscaler = testJob.hr_upscaler
      ∧ a.request.refiner_start = testJob.refiner_start
      ∧ a.request.denoising_strength = testJob.denoising_strength
      ∧ a.request.hr_second_pass_steps = testJob.hr_second_pass_steps
      ∧ a.messageId = "mid-1"
      ∧ a.uploadUrls = ["u1", "u2", "u3", "u4"]
      ∧ a.jobId = "job-1" :=
  getJob_merges_prompt_and_batch { messages := some [witnessMessage] }
    witnessMessage [] witnessDescriptor rfl rfl

/-- C7: For every queue response with zero or absent messages, getJob
returns the no-job signal (null) without raising an error, and the loop
iteration for that response sleeps 1000 ms, leaves the state unchanged and
submits no inference request. -/
theorem getJob_empty_queue_no_job (inference : Text2ImageRequest → List String)
    (resp : GetJobFromQueueResponse) (s : LoopState)
    (h : resp.messages = none ∨ resp.messages = some []) :
    getJob resp = Except.ok none
    ∧ loopBody inference resp s = Except.ok (s, [IterEvent.sleptMs 1000])
    ∧ ∀ s2 evs, loopBody inference resp s = Except.ok (s2, evs) →
        s2 = s ∧ IterEvent.sleptMs 1000 ∈ evs
          ∧ ∀ req n, IterEvent.submitted req n ∉ evs := by
  have hj : getJob resp = Except.ok none := by
    rcases h with h | h <;> simp [getJob, h]
  refine ⟨hj, by simp [loopBody, hj], ?_⟩
  intro s2 evs heq
  rw [loopBody, hj] at heq
  simp only [Except.ok.injEq, Prod.mk.injEq] at heq
  obtain ⟨hs2, hevs⟩ := heq
  subst hs2 hevs
  simp

/-- Witness for C7 at the concrete empty queue response of the spec
example. -/
theorem getJob_empty_queue_no_job_witness :
    getJob { messages := some [] } = Except.ok none
    ∧ loopBody (fun _ => []) { messages := some [] } { numImages := 0, chains := [] }
        = Except.ok ({ numImages := 0, chains := [] }, [IterEvent.sleptMs 1000]) := by
  have h := getJob_empty_queue_no_job (fun _ => []) { messages := some [] }
    { numImages := 0, chains := [] } (Or.inr rfl)
  exact ⟨h.1, h.2.1⟩

/-- C6: The persistence chain of a job with n images has length n + 2 and
performs, in order, the upload of every image i at position i (i < n), the
result report at position n, and the queue-message delete at position
n + 1; every upload action in the chain sits strictly before the report and
the delete, so the delete never precedes the completion of all uploads. -/
theorem persistenceChain_upload_report_delete (j : JobAssignment) (n : Nat) :
    (persistenceChain j n).length = n + 2
    ∧ (persistenceChain j n)[n]? = some (PersistAction.reportResult j.jobId)
    ∧ (persistenceChain j n)[n + 1]? = some (PersistAction.deleteMessage j.messageId)
    ∧ (∀ i, i < n →
        (persistenceChain j n)[i]? = some (PersistAction.uploadImg i (j.uploadUrls.getD i "")))
    ∧ (∀ p i u, (persistenceChain j n)[p]? = some (PersistAction.uploadImg i u) → p < n) := by
  have hlen : ((List.range n).map fun i =>
      PersistAction.uploadImg i (j.uploadUrls.getD i "")).length = n := by
    simp
  refine ⟨by simp [persistenceChain], ?_, ?_, ?_, ?_⟩
  · rw [persistenceChain, List.getElem?_append_right (by omega), hlen]
    simp
  · rw [persistenceChain, List.getElem?_append_right (by omega), hlen]
    simp
  · intro i hi
    rw [persistenceChain, List.getElem?_append_left (by omega)]
    rw [List.getElem?_map, List.getElem?_range hi]
    rfl
  · intro p i u hp
    by_contra hlt
    push_neg at hlt
    rw [persistenceChain, List.getElem?_append_right (by omega), hlen] at hp
    rcases hq : p - n with _ | _ | q
    · rw [hq] at hp
      simp at hp
    · rw [hq] at hp
      simp at hp
    · rw [hq] at hp
      simp at hp

/-- A concrete two-image job assignment used to witness the
persistence-chain ordering. -/
def twoImageJob : JobAssignment :=
  { request := testJob
    messageId := "m1"
    uploadUrls := ["u1", "u2"]
    jobId := "j1" }

/-- Witness for C6 at a concrete job with two images. -/
theorem persistenceChain_upload_report_delete_witness :
    (persistenceChain twoImageJob 2)[0]? = some (PersistAction.uploadImg 0 "u1")
    ∧ (persistenceChain twoImageJob 2)[2]? = some (PersistAction.reportResult "j1")
    ∧ (persistenceChain twoImageJob 2)[3]? = some (PersistAction.deleteMessage "m1") := by
  have h := persistenceChain_upload_report_delete twoImageJob 2
  exact ⟨h.2.2.2.1 0 (by decide), h.2.1, h.2.2.1⟩

/-- A queue response holding one parseable job of batch size 4 (the
static-strategy example scenario of the spec). -/
def fourImageResponse : GetJobFromQueueResponse :=
  { messages := some
      [{ messageId := "m"
         body := some { id := "j"
                        prompt := "cat"
                        batch_size := 4
                        upload_url := ["u1", "u2", "u3", "u4"] } }] }

/-- An inference server that returns four images for every request. -/
def fourImageInference : Text2ImageRequest → List String :=
  fun _ => ["i1", "i2", "i3", "i4"]

/-- C1: With a positive target K the loop guard of line 375 becomes false
exactly when the cumulative image count has reached K, with a negative
target it equals the stay-alive flag (the count never falsifies it), and in
the example scenario (target 10, every batch returning 4 images) the loop
performs exactly 3 submissions, ending at 12 images with the last batch
counted in full. -/
theorem loopGuard_stops_at_target (K : Int) (n : Nat) :
    (0 < K → (loopGuard true K n = false ↔ K ≤ (n : Int)))
    ∧ (K < 0 → ∀ alive : Bool, loopGuard alive K n = alive)
    ∧ (runMain 10 fourImageInference (List.replicate 10 fourImageResponse)
        { numImages := 0, chains := [] }).2 = [4, 4, 4]
    ∧ (runMain 10 fourImageInference (List.replicate 10 fourImageResponse)
        { numImages := 0, chains := [] }).1.numImages = 12 := by
  refine ⟨?_, ?_, by decide, by decide⟩
  · intro hK
    simp only [loopGuard, Bool.true_and, Bool.or_eq_false_iff,
      decide_eq_false_iff_not, not_lt]
    omega
  · intro hK alive
    simp only [loopGuard, decide_eq_true hK]
    cases alive <;> simp

/-- Witness for C1: the guard at target 10 is false at 12 images, still
true at 9 images, and a negative target leaves it equal to the stay-alive
flag. -/
theorem loopGuard_stops_at_target_witness :
    loopGuard true 10 12 = false
    ∧ loopGuard true (-1) 1000000 = true := by
  constructor
  · exact ((loopGuard_stops_at_target 10 12).1 (by norm_num)).mpr (by norm_num)
  · exact (loopGuard_stops_at_target (-1) 1000000).2.1 (by norm_num) true

/-- C2: Over any schedule of queue responses and any inference behavior,
the image counter after the run equals its initial value plus the sum of
the returned image counts of the successfully submitted batches, and a
scheduling step of the launched (unawaited) persistence chains never
changes the counter. -/
theorem numImages_is_sum_of_batches (K : Int)
    (inference : Text2ImageRequest → List String)
    (schedule : List GetJobFromQueueResponse) (s : LoopState) :
    (runMain K inference schedule s).1.numImages
      = s.numImages + ((runMain K inference schedule s).2).sum
    ∧ ∀ (s2 : LoopState) (i : Nat), (stepChains s2 i).numImages = s2.numImages := by
  refine ⟨?_, fun s2 i => rfl⟩
  induction schedule generalizing s with
  | nil => simp [runMain]
  | cons r rest ih =>
    simp only [runMain]
    split
    · rcases hj : getJob r with _ | j
      · simp
      · rcases j with _ | j
        · exact ih s
        · simp only [List.sum_cons]
          have := ih { numImages := s.numImages + (inference j.request).length
                       chains := s.chains ++ [persistenceChain j (inference j.request).length] }
          simp only at this
          omega
    · simp

/-- Auxiliary: a first success at relative index i of the remaining budget
makes the startup polling loop return ready at that attempt after i
one-second sleeps. -/
theorem waitForServerToStartGo_ready (probe : Nat → Bool) (r : Nat) :
    ∀ a i, i < r → (∀ j, j < i → probe (a + j) = false) → probe (a + i) = true →
      waitForServerToStartGo probe a r = (Except.ok (ServerStartOutcome.ready (a + i)), i) := by
  induction r with
  | zero => omega
  | succ r ih =>
    intro a i hi hbefore hsucc
    rcases i with _ | i
    · simp only [Nat.add_zero] at hsucc
      simp [waitForServerToStartGo, hsucc]
    · have h0 : probe a = false := by
        have := hbefore 0 (Nat.succ_pos i)
        simpa using this
      have hrec := ih (a + 1) i (by omega)
        (fun j hj => by
          have := hbefore (j + 1) (by omega)
          simpa [Nat.add_assoc, Nat.add_comm 1 j] using this)
        (by
          have : a + 1 + i = a + (i + 1) := by omega
          rw [this]
          exact hsucc)
      simp only [waitForServerToStartGo, h0, Bool.false_eq_true, if_false, hrec]
      have : a + 1 + i = a + (i + 1) := by omega
      rw [this]

/-- Auxiliary: when every probe in the remaining budget fails, the startup
polling loop falls through and returns normally, one sleep per attempt. -/
theorem waitForServerToStartGo_gaveUp (probe : Nat → Bool) (r : Nat) :
    ∀ a, (∀ i, i < r → probe (a + i) = false) →
      waitForServerToStartGo probe a r = (Except.ok ServerStartOutcome.gaveUp, r) := by
  induction r with
  | zero => intro a _; rfl
  | succ r ih =>
    intro a hfail
    have h0 : probe a = false := by simpa using hfail 0 (Nat.succ_pos r)
    have hrec := ih (a + 1) (fun i hi => by
      have := hfail (i + 1) (by omega)
      simpa [Nat.add_assoc, Nat.add_comm 1 i] using this)
    simp [waitForServerToStartGo, h0, hrec]

/-- C3 counterexample: on a probe that never succeeds the attempt budget is
exhausted, yet waitForServerToStart returns normally with the ok outcome
gaveUp (after 300 one-second sleeps) — no Timeout error is ever thrown, so
exhaustion is not fatal. -/
theorem waitForServerToStart_exhaustion_not_an_error :
    waitForServerToStart (fun _ => false)
      = (Except.ok ServerStartOutcome.gaveUp, 300) := by
  set_option maxRecDepth 4000 in rfl

/-- C3 (amended): waitForServerToStart polls at fixed 1-second intervals up
to 300 attempts and returns ready on the first non-error response (one
sleep per failed attempt before it); when all 300 attempts fail it returns
normally with gaveUp after 300 sleeps — the while loop falls through and no
error is raised in either case. -/
theorem waitForServerToStart_first_success (probe : Nat → Bool) :
    (∀ i, i < 300 → (∀ j, j < i → probe j = false) → probe i = true →
      waitForServerToStart probe = (Except.ok (ServerStartOutcome.ready i), i))
    ∧ ((∀ i, i < 300 → probe i = false) →
      waitForServerToStart probe = (Except.ok ServerStartOutcome.gaveUp, 300)) := by
  constructor
  · intro i hi hbefore hsucc
    have := waitForServerToStartGo_ready probe 300 0 i hi
      (fun j hj => by simpa using hbefore j hj) (by simpa using hsucc)
    simpa [waitForServerToStart] using this
  · intro hfail
    have := waitForServerToStartGo_gaveUp probe 300 0 (fun i hi => by simpa using hfail i hi)
    simpa [waitForServerToStart] using this

/-- Witness for C3 (amended) at a probe succeeding first on attempt 3. -/
theorem waitForServerToStart_first_success_witness :
    waitForServerToStart (fun n => n == 3)
      = (Except.ok (ServerStartOutcome.ready 3), 3) :=
  (waitForServerToStart_first_success (fun n => n == 3)).1 3 (by decide)
    (by decide) (by decide)

/-- Unfolding step of the model-load loop: a successful fetch carrying the
marker returns ok at once. -/
theorem waitForModelToLoadGo_step_marker {t : Nat → FetchOutcome} {a : Nat}
    {lines : List String} (f r : Nat) (ht : t a = FetchOutcome.success lines)
    (hm : lines.any lineHasMarker = true) :
    waitForModelToLoadGo t a f (r + 1) = (ModelLoadResult.ok, [PollEv.logsFetched true]) := by
  rw [waitForModelToLoadGo, ht]
  simp [hm]

/-- Unfolding step of the model-load loop: a successful fetch without the
marker sleeps and continues with the same failure count. -/
theorem waitForModelToLoadGo_step_nomarker {t : Nat → FetchOutcome} {a : Nat}
    {lines : List String} (f r : Nat) (ht : t a = FetchOutcome.success lines)
    (hm : lines.any lineHasMarker = false) :
    waitForModelToLoadGo t a f (r + 1)
      = ((waitForModelToLoadGo t (a + 1) f r).1,
         PollEv.logsFetched false :: PollEv.sleptMs 1000
           :: (waitForModelToLoadGo t (a + 1) f r).2) := by
  rw [waitForModelToLoadGo, ht]
  simp [hm]

/-- Unfolding step of the model-load loop: the failure that pushes the
cumulative count past 10 is rethrown at once. -/
theorem waitForModelToLoadGo_step_fatal {t : Nat → FetchOutcome} {a : Nat}
    (f r : Nat) (ht : t a = FetchOutcome.failure) (hf : 10 < f + 1) :
    waitForModelToLoadGo t a f (r + 1)
      = (ModelLoadResult.fatalError, [PollEv.requestFailed]) := by
  rw [waitForModelToLoadGo, ht]
  simp [hf]

/-- Unfolding step of the model-load loop: a tolerated failure sleeps and
continues with the failure count increased. -/
theorem waitForModelToLoadGo_step_tolerated {t : Nat → FetchOutcome} {a : Nat}
    (f r : Nat) (ht : t a = FetchOutcome.failure) (hf : ¬ 10 < f + 1) :
    waitForModelToLoadGo t a f (r + 1)
      = ((waitForModelToLoadGo t (a + 1) (f + 1) r).1,
         PollEv.requestFailed :: PollEv.sleptMs 1000
           :: (waitForModelToLoadGo t (a + 1) (f + 1) r).2) := by
  rw [waitForModelToLoadGo, ht]
  simp [hf]

/-- Auxiliary: a fatalError return of the model-load polling loop needs the
cumulative failure count (carried count plus failures in the remaining
window) to reach 11. -/
theorem waitForModelToLoadGo_fatal_failCount (t : Nat → FetchOutcome) :
    ∀ r a f, (waitForModelToLoadGo t a f r).1 = ModelLoadResult.fatalError →
      11 ≤ f + failCountFrom t a r := by
  intro r
  induction r with
  | zero =>
    intro a f h
    simp [waitForModelToLoadGo] at h
  | succ r ih =>
    intro a f h
    cases ht : t a with
    | success lines =>
      rcases hm : lines.any lineHasMarker with _ | _
      · rw [waitForModelToLoadGo_step_nomarker f r ht hm] at h
        have := ih (a + 1) f h
        simp only [failCountFrom, ht, reduceCtorEq, if_false]
        omega
      · rw [waitForModelToLoadGo_step_marker f r ht hm] at h
        simp at h
    | failure =>
      by_cases hf : 10 < f + 1
      · simp only [failCountFrom, ht, if_true]
        omega
      · rw [waitForModelToLoadGo_step_tolerated f r ht hf] at h
        have := ih (a + 1) (f + 1) h
        simp only [failCountFrom, ht, if_true]
        omega

/-- Auxiliary: in the event list of the model-load polling loop, every
request-failure event that is not the last event is immediately followed by
a 1000 ms sleep event. -/
theorem waitForModelToLoadGo_fail_then_sleep (t : Nat → FetchOutcome) :
    ∀ r a f p, (waitForModelToLoadGo t a f r).2[p]? = some PollEv.requestFailed →
      p + 1 < (waitForModelToLoadGo t a f r).2.length →
      (waitForModelToLoadGo t a f r).2[p + 1]? = some (PollEv.sleptMs 1000) := by
  intro r
  induction r with
  | zero =>
    intro a f p h hlen
    simp [waitForModelToLoadGo] at h
  | succ r ih =>
    intro a f p h hlen
    cases ht : t a with
    | success lines =>
      rcases hm : lines.any lineHasMarker with _ | _
      · rw [waitForModelToLoadGo_step_nomarker f r ht hm] at h hlen ⊢
        rcases p with _ | _ | p
        · simp at h
        · simp at h
        · simp only [List.getElem?_cons_succ] at h ⊢
          simp only [List.length_cons] at hlen
          exact ih (a + 1) f p h (by omega)
      · rw [waitForModelToLoadGo_step_marker f r ht hm] at h hlen ⊢
        rcases p with _ | p
        · simp at h
        · simp at h
    | failure =>
      by_cases hf : 10 < f + 1
      · rw [waitForModelToLoadGo_step_fatal f r ht hf] at h hlen ⊢
        rcases p with _ | p
        · simp at hlen
        · simp at h
      · rw [waitForModelToLoadGo_step_tolerated f r ht hf] at h hlen ⊢
        rcases p with _ | _ | p
        · simp
        · simp at h
        · simp only [List.getElem?_cons_succ] at h ⊢
          simp only [List.length_cons] at hlen
          exact ih (a + 1) (f + 1) p h (by omega)

/-- Auxiliary: the model-load polling loop returns ok exactly when its
event list records a log fetch that saw the startup marker. -/
theorem waitForModelToLoadGo_ok_iff_marker_event (t : Nat → FetchOutcome) :
    ∀ r a f, ((waitForModelToLoadGo t a f r).1 = ModelLoadResult.ok ↔
      PollEv.logsFetched true ∈ (waitForModelToLoadGo t a f r).2) := by
  intro r
  induction r with
  | zero =>
    intro a f
    simp [waitForModelToLoadGo]
  | succ r ih =>
    intro a f
    cases ht : t a with
    | success lines =>
      rcases hm : lines.any lineHasMarker with _ | _
      · rw [waitForModelToLoadGo_step_nomarker f r ht hm]
        simp only [List.mem_cons]
        rw [ih (a + 1) f]
        simp
      · rw [waitForModelToLoadGo_step_marker f r ht hm]
        simp
    | failure =>
      by_cases hf : 10 < f + 1
      · rw [waitForModelToLoadGo_step_fatal f r ht hf]
        simp
      · rw [waitForModelToLoadGo_step_tolerated f r ht hf]
        simp only [List.mem_cons]
        rw [ih (a + 1) (f + 1)]
        simp

/-- Auxiliary: an ok return of the model-load polling loop exhibits an
attempt inside the window whose fetch carried the startup marker. -/
theorem waitForModelToLoadGo_ok_marker_exists (t : Nat → FetchOutcome) :
    ∀ r a f, (waitForModelToLoadGo t a f r).1 = ModelLoadResult.ok →
      ∃ n, n < r ∧ markerAt t (a + n) = true := by
  intro r
  induction r with
  | zero =>
    intro a f h
    simp [waitForModelToLoadGo] at h
  | succ r ih =>
    intro a f h
    cases ht : t a with
    | success lines =>
      rcases hm : lines.any lineHasMarker with _ | _
      · rw [waitForModelToLoadGo_step_nomarker f r ht hm] at h
        obtain ⟨n, hn, hmark⟩ := ih (a + 1) f h
        exact ⟨n + 1, by omega, by rw [show a + (n + 1) = a + 1 + n by omega]; exact hmark⟩
      · exact ⟨0, Nat.succ_pos r, by simp [markerAt, ht, hm]⟩
    | failure =>
      by_cases hf : 10 < f + 1
      · rw [waitForModelToLoadGo_step_fatal f r ht hf] at h
        simp at h
      · rw [waitForModelToLoadGo_step_tolerated f r ht hf] at h
        obtain ⟨n, hn, hmark⟩ := ih (a + 1) (f + 1) h
        exact ⟨n + 1, by omega, by rw [show a + (n + 1) = a + 1 + n by omega]; exact hmark⟩

/-- Auxiliary: with no marker anywhere in the window and a cumulative
failure count staying within the budget, the model-load polling loop runs
its window out and returns the timeout error. -/
theorem waitForModelToLoadGo_timeout (t : Nat → FetchOutcome) :
    ∀ r a f, (∀ n, n < r → markerAt t (a + n) = false) →
      f + failCountFrom t a r ≤ 10 →
      (waitForModelToLoadGo t a f r).1 = ModelLoadResult.timeout := by
  intro r
  induction r with
  | zero =>
    intro a f _ _
    rfl
  | succ r ih =>
    intro a f hmark hbudget
    cases ht : t a with
    | success lines =>
      have hm : lines.any lineHasMarker = false := by
        have := hmark 0 (Nat.succ_pos r)
        simpa [markerAt, ht] using this
      rw [waitForModelToLoadGo_step_nomarker f r ht hm]
      refine ih (a + 1) f (fun n hn => ?_) ?_
      · have := hmark (n + 1) (by omega)
        rw [show a + 1 + n = a + (n + 1) by omega]
        exact this
      · simp only [failCountFrom, ht, reduceCtorEq, if_false] at hbudget
        omega
    | failure =>
      have hcount : failCountFrom t a (r + 1) = 1 + failCountFrom t (a + 1) r := by
        simp [failCountFrom, ht]
      rw [hcount] at hbudget
      have hf : ¬ 10 < f + 1 := by omega
      rw [waitForModelToLoadGo_step_tolerated f r ht hf]
      refine ih (a + 1) (f + 1) (fun n hn => ?_) (by omega)
      have := hmark (n + 1) (by omega)
      rw [show a + 1 + n = a + (n + 1) by omega]
      exact this

/-- A fetch trace with strictly alternating failure and success: no two
failures are ever consecutive. -/
def alternatingTrace : Nat → FetchOutcome :=
  fun n => if n % 2 = 0 then FetchOutcome.failure else FetchOutcome.success []

/-- C4 counterexample: on the strictly alternating trace the longest run of
consecutive failures is 1, yet waitForModelToLoad rethrows fatally (its
failure counter is cumulative and never reset by the interleaved successful
fetches), while the consecutive-tolerance semantics worded by the claim
would poll through all 300 attempts and time out. -/
theorem waitForModelToLoad_no_reset_on_success :
    maxConsecutiveFailures alternatingTrace 300 = 1
    ∧ (waitForModelToLoad alternatingTrace).1 = ModelLoadResult.fatalError
    ∧ waitForModelToLoadSpec alternatingTrace = ModelLoadResult.timeout := by
  refine ⟨by decide, by decide, by decide⟩

/-- C4 (amended): waitForModelToLoad tolerates up to 10 request failures
counted cumulatively over the whole polling loop — a successful log fetch
does not reset the count — so a fatal rethrow requires 11 failures among
the 300 attempts, at most 10 cumulative failures can never be fatal, and
every tolerated failure is immediately followed by a 1-second delay before
the retry. -/
theorem waitForModelToLoad_cumulative_failure_budget (t : Nat → FetchOutcome) :
    ((waitForModelToLoad t).1 = ModelLoadResult.fatalError → 11 ≤ failCount t 300)
    ∧ (failCount t 300 ≤ 10 → (waitForModelToLoad t).1 ≠ ModelLoadResult.fatalError)
    ∧ (∀ p, (waitForModelToLoad t).2[p]? = some PollEv.requestFailed →
        p + 1 < (waitForModelToLoad t).2.length →
        (waitForModelToLoad t).2[p + 1]? = some (PollEv.sleptMs 1000)) := by
  refine ⟨?_, ?_, ?_⟩
  · intro h
    simpa [failCount] using waitForModelToLoadGo_fatal_failCount t 300 0 0 h
  · intro hbudget h
    have := waitForModelToLoadGo_fatal_failCount t 300 0 0 h
    simp only [Nat.zero_add] at this
    rw [failCount] at hbudget
    omega
  · intro p h hlen
    exact waitForModelToLoadGo_fail_then_sleep t 300 0 0 p h hlen

/-- Witness for C4 (amended) at a trace with five failures followed by
markerless successes: five cumulative failures stay within the budget, so
the run is not fatal. -/
theorem waitForModelToLoad_cumulative_failure_budget_witness :
    (waitForModelToLoad
        (fun n => if n < 5 then FetchOutcome.failure else FetchOutcome.success [])).1
      ≠ ModelLoadResult.fatalError :=
  (waitForModelToLoad_cumulative_failure_budget
      (fun n => if n < 5 then FetchOutcome.failure else FetchOutcome.success [])).2.1
    (by decide)

/-- C5: waitForModelToLoad returns successfully exactly when one of its log
fetches saw a line containing the marker "Startup time:" (first conjunct:
ok iff the event list records a marker-bearing fetch; second: an ok run
exhibits a marker within the 300-attempt window); when no attempt in the
window carries the marker the function does not return — it throws (third
conjunct), the thrown error being the timeout error whenever the failure
budget was respected (fourth conjunct). -/
theorem waitForModelToLoad_marker_success (t : Nat → FetchOutcome) :
    ((waitForModelToLoad t).1 = ModelLoadResult.ok ↔
      PollEv.logsFetched true ∈ (waitForModelToLoad t).2)
    ∧ ((waitForModelToLoad t).1 = ModelLoadResult.ok →
        ∃ n, n < 300 ∧ markerAt t n = true)
    ∧ ((∀ n, n < 300 → markerAt t n = false) →
        (waitForModelToLoad t).1 ≠ ModelLoadResult.ok)
    ∧ ((∀ n, n < 300 → markerAt t n = false) → failCount t 300 ≤ 10 →
        (waitForModelToLoad t).1 = ModelLoadResult.timeout) := by
  refine ⟨waitForModelToLoadGo_ok_iff_marker_event t 300 0 0, ?_, ?_, ?_⟩
  · intro h
    have := waitForModelToLoadGo_ok_marker_exists t 300 0 0 h
    simpa using this
  · intro hnone h
    have := waitForModelToLoadGo_ok_marker_exists t 300 0 0 h
    obtain ⟨n, hn, hmark⟩ := this
    simp only [Nat.zero_add] at hmark
    rw [hnone n hn] at hmark
    exact Bool.false_ne_true hmark
  · intro hnone hbudget
    refine waitForModelToLoadGo_timeout t 300 0 0 (fun n hn => ?_) ?_
    · simpa using hnone n hn
    · rw [failCount] at hbudget
      omega

/-- Witness for C5 at the all-successful markerless trace: the budget is
respected, no marker ever appears, and the run ends in the timeout error.
-/
theorem waitForModelToLoad_marker_success_witness :
    (waitForModelToLoad (fun _ => FetchOutcome.success [])).1 = ModelLoadResult.timeout :=
  (waitForModelToLoad_marker_success (fun _ => FetchOutcome.success [])).2.2.2
    (by decide) (by decide)

end SdnextBenchmark
